import Mathlib

/-!
# Verification of `blender_auto_render.py`

Shallow embedding of the Blender spritesheet-rendering script.  The host
(Blender) state touched by the script is modelled explicitly: a scene holds
a registry of named objects, each with a list of NLA tracks (name + mute
flag) and two visibility flags, plus the scene-wide current frame, the
configured frame range, the render output path, and the set of directories
that exist on disk.  Every observable host operation is also recorded in an
event trace; the render event additionally records the scene it renders
(a render is a function of the whole scene state).  Python exceptions
(AttributeError / KeyError / NameError on unresolved names) are modelled by
a `Res.crashed` result carrying the state at the point of the fault.
-/

structure Track where
  name : String
  mute : Bool
  deriving DecidableEq

structure Obj where
  name : String
  tracks : List Track
  hide_render : Bool
  hide_viewport : Bool
  deriving DecidableEq

structure Scene where
  objects : List Obj
  frame : Int
  frame_start : Int
  frame_end : Int
  render_filepath : String
  dirs : List String
  deriving DecidableEq

inductive Event where
  | frameSet (n : Int)
  | setFrameEnd (n : Int)
  | setTrackMute (obj track : String) (m : Bool)
  | setHideRender (obj : String) (b : Bool)
  | setHideViewport (obj : String) (b : Bool)
  | render (frame : Int) (path : String) (snap : Scene)
  | printMsg (msg : String)
  | makedirs (path : String)
  deriving DecidableEq

abbrev Trace := List Event

/-- Result of running a script fragment: normal termination with the final
scene, or an uncaught exception, carrying the scene at the fault point. -/
inductive Res where
  | ok (s : Scene)
  | crashed (s : Scene)
  deriving DecidableEq

/-- Sequencing: a crash aborts the rest of the program. -/
def andThen (r : Res × Trace) (f : Scene → Trace → Res × Trace) : Res × Trace :=
  match r with
  | (Res.crashed s, tr) => (Res.crashed s, tr)
  | (Res.ok s, tr) => f s tr

/-- `bpy.data.objects.get(name)`: first object with the given name. -/
def Scene.getObj (s : Scene) (n : String) : Option Obj :=
  s.objects.find? (fun o => o.name == n)

/-- Update the first object with the given name (Blender object names are
registry keys; `get` returns the first match). -/
def updFirstObj (n : String) (f : Obj → Obj) : List Obj → List Obj
  | [] => []
  | o :: os => if o.name == n then f o :: os else o :: updFirstObj n f os

def Scene.updObj (s : Scene) (n : String) (f : Obj → Obj) : Scene :=
  { s with objects := updFirstObj n f s.objects }

/-- `obj.animation_data.nla_tracks[y]` indexing assigns through the first
track with the given name. -/
def setMuteFirst (n : String) (b : Bool) : List Track → List Track
  | [] => []
  | t :: ts => if t.name == n then { t with mute := b } :: ts else t :: setMuteFirst n b ts

def trackNamed (ts : List Track) (n : String) : Option Track :=
  ts.find? (fun t => t.name == n)

/-- Whether `nla_tracks[n]` resolves (otherwise Python raises KeyError). -/
def hasTrack (o : Obj) (n : String) : Bool :=
  o.tracks.any (fun t => t.name == n)

/-- Set the mute flag of every track of an object. -/
def muteAllTracks (m : Bool) (o : Obj) : Obj :=
  { o with tracks := o.tracks.map (fun t => { t with mute := m }) }

/-- Set the mute flag of the first track with the given name. -/
def setTrackMuteObj (y : String) (b : Bool) (o : Obj) : Obj :=
  { o with tracks := setMuteFirst y b o.tracks }

/-- Set both visibility flags of an object. -/
def setHideFlags (b : Bool) (o : Obj) : Obj :=
  { o with hide_render := b, hide_viewport := b }

/-- `mute_tracks(tracks, mute)` as invoked in the script: the collection
passed is always the full `nla_tracks` of the object named `x`, so the
embedding takes the object name.  Crashes (AttributeError) when the object
does not resolve, before any flag is written. -/
def mute_tracks (x : String) (m : Bool) (s : Scene) (tr : Trace) : Res × Trace :=
  match s.getObj x with
  | none => (Res.crashed s, tr)
  | some o =>
    (Res.ok (s.updObj x (muteAllTracks m)),
     tr ++ (o.tracks.map (fun t => t.name)).map (fun nm => Event.setTrackMute x nm m))

/-- `bpy.data.objects.get(x).animation_data.nla_tracks[y].mute = b`.
Crashes when the object or the track does not resolve. -/
def set_nla_mute (x y : String) (b : Bool) (s : Scene) (tr : Trace) : Res × Trace :=
  match s.getObj x with
  | none => (Res.crashed s, tr)
  | some o =>
    if hasTrack o y then
      (Res.ok (s.updObj x (setTrackMuteObj y b)),
       tr ++ [Event.setTrackMute x y b])
    else (Res.crashed s, tr)

/-- `bpy.context.scene.frame_set(n)`. -/
def frame_set (n : Int) (s : Scene) (tr : Trace) : Scene × Trace :=
  ({ s with frame := n }, tr ++ [Event.frameSet n])

/-- `render_frame(frame, filepath)`: sets the current frame, sets the render
output path, and renders (the render event snapshots the scene it sees). -/
def render_frame (frame : Int) (filepath : String) (s : Scene) (tr : Trace) : Scene × Trace :=
  let s1 : Scene := { s with frame := frame }
  let s2 : Scene := { s1 with render_filepath := filepath }
  (s2, tr ++ [Event.frameSet frame, Event.render frame filepath s2])

/-- String prefix test on the character-list model (the semantics of
Python `str.startswith`). -/
def strStartsWith (s p : String) : Bool :=
  p.data.isPrefixOf s.data

/-- String suffix test on the character-list model (the semantics of
Python `str.endswith`). -/
def strEndsWith (s p : String) : Bool :=
  p.data.isSuffixOf s.data

def strTake (s : String) (n : Nat) : String :=
  String.mk (s.data.take n)

def strDrop (s : String) (n : Nat) : String :=
  String.mk (s.data.drop n)

/-- Python `str.zfill`: left-pad with zeros to the given width, inserting
the padding after a leading sign character. -/
def zfill (s : String) (width : Nat) : String :=
  if width ≤ s.length then s
  else
    let sign := if strStartsWith s "-" || strStartsWith s "+" then strTake s 1 else ""
    let rest := if sign = "" then s else strDrop s 1
    sign ++ String.mk (List.replicate (width - s.length) '0') ++ rest

/-- The filename built by `write_animations2` for one frame:
`output_path + "_" + str(frame).zfill(3) + ".png"`. -/
def frame_filename (output_path : String) (frame : Int) : String :=
  output_path ++ "_" ++ zfill (toString frame) 3 ++ ".png"

/-- Length of Python `range(start, stop, step)` for positive `step`. -/
def pyRangeLen (start stop step : Int) : Nat :=
  ((stop - start).toNat + (step.toNat - 1)) / step.toNat

/-- Python `range(start, stop, step)`; the script only ever calls it with a
positive step (`step = 2` or a caller-supplied step). -/
def pyRange (start stop step : Int) : List Int :=
  if 0 < step then
    (List.range (pyRangeLen start stop step)).map (fun (i : Nat) => start + step * (i : Int))
  else []

/-- The frame loop of `write_animations2`, over the sampled frame list. -/
def render_loop (output_path : String) : List Int → Scene → Trace → Scene × Trace
  | [], s, tr => (s, tr)
  | f :: fs, s, tr =>
    let p := render_frame f (frame_filename output_path f) s tr
    render_loop output_path fs p.1 p.2

/-- `write_animations2(output_path, step, start_frame, end_frame)`.  The
source declares defaults for `start_frame`/`end_frame` (the scene frame
range, captured at definition time); the only call site passes both
explicitly, so the embedding takes them as plain parameters. -/
def write_animations2 (output_path : String) (step start_frame end_frame : Int)
    (s : Scene) (tr : Trace) : Scene × Trace :=
  render_loop output_path (pyRange start_frame (end_frame + 1) step) s tr

/-- The body of `reset_tracks` for a single object name, in source order:
`frame_set(1)`; mute all tracks; unmute "reset"; mute "reset"; mute all
tracks; unmute "reset"; `frame_set(1)`; mute "reset". -/
def reset_body (x : String) (s : Scene) (tr : Trace) : Res × Trace :=
  let p1 := frame_set 1 s tr
  andThen (mute_tracks x true p1.1 p1.2) (fun s2 tr2 =>
  andThen (set_nla_mute x "reset" false s2 tr2) (fun s3 tr3 =>
  andThen (set_nla_mute x "reset" true s3 tr3) (fun s4 tr4 =>
  andThen (mute_tracks x true s4 tr4) (fun s5 tr5 =>
  andThen (set_nla_mute x "reset" false s5 tr5) (fun s6 tr6 =>
  let p7 := frame_set 1 s6 tr6
  set_nla_mute x "reset" true p7.1 p7.2)))))

/-- `reset_tracks(obj)`: the reset pulse for each object name in turn. -/
def reset_tracks (objNames : List String) (s : Scene) (tr : Trace) : Res × Trace :=
  match objNames with
  | [] => (Res.ok s, tr)
  | x :: xs => andThen (reset_body x s tr) (reset_tracks xs)

/-- `hide_objects(objects, true_or_false)`: for each name, resolve the
object and set both hidden flags.  An unresolved name crashes at the first
flag assignment (AttributeError on `None`). -/
def hide_objects (names : List String) (b : Bool) (s : Scene) (tr : Trace) : Res × Trace :=
  match names with
  | [] => (Res.ok s, tr)
  | n :: ns =>
    match s.getObj n with
    | none => (Res.crashed s, tr)
    | some _ =>
      hide_objects ns b
        (s.updObj n (setHideFlags b))
        (tr ++ [Event.setHideRender n b, Event.setHideViewport n b])

/-- One pass of `mute_and_unmute` over a list of track names for one
object, setting each named track's mute flag to `b` in order.  (The
source guards each pass with `if x[1]!=0:` / `if x[2]!=0:`; comparing a
list with the integer 0 is always `True` in Python 3, so the guard is
vacuous and the pass is just the loop.) -/
def mute_pass (x : String) (names : List String) (b : Bool) (s : Scene) (tr : Trace) : Res × Trace :=
  match names with
  | [] => (Res.ok s, tr)
  | y :: ys => andThen (set_nla_mute x y b s tr) (fun s2 tr2 => mute_pass x ys b s2 tr2)

/-- `mute_and_unmute` body for one `zip` triple: the mute pass over
`x[1]`, then the unmute pass over `x[2]`. -/
def mute_and_unmute_one (x : String) (ml ul : List String) (s : Scene) (tr : Trace) : Res × Trace :=
  andThen (mute_pass x ml true s tr) (fun s2 tr2 => mute_pass x ul false s2 tr2)

/-- Python `zip` over three lists (truncating to the shortest). -/
def zip3 : List String → List (List String) → List (List String) →
    List (String × List String × List String)
  | x :: xs, m :: ms, u :: us => (x, m, u) :: zip3 xs ms us
  | _, _, _ => []

def muteUnmuteLoop : List (String × List String × List String) → Scene → Trace → Res × Trace
  | [], s, tr => (Res.ok s, tr)
  | (x, ml, ul) :: rest, s, tr =>
    andThen (mute_and_unmute_one x ml ul s tr) (fun s2 tr2 => muteUnmuteLoop rest s2 tr2)

/-- `mute_and_unmute(objects, tracks_to_mute, tracks_to_unmute)`. -/
def mute_and_unmute (objects : List String) (tracks_to_mute tracks_to_unmute : List (List String))
    (s : Scene) (tr : Trace) : Res × Trace :=
  muteUnmuteLoop (zip3 objects tracks_to_mute tracks_to_unmute) s tr

/-- `os.path.join` for the path shapes the script builds. -/
def path_join (a b : String) : String :=
  if strStartsWith b "/" then b
  else if a = "" then b
  else if strEndsWith a "/" then a ++ b
  else a ++ "/" ++ b

/-- `bpy.context.scene.frame_end = n`. -/
def set_frame_end (n : Int) (s : Scene) (tr : Trace) : Scene × Trace :=
  ({ s with frame_end := n }, tr ++ [Event.setFrameEnd n])

/-- `if not os.path.exists(output_path): os.makedirs(output_path)`. -/
def makedirs_if_needed (p : String) (s : Scene) (tr : Trace) : Scene × Trace :=
  if s.dirs.contains p then (s, tr)
  else ({ s with dirs := p :: s.dirs }, tr ++ [Event.makedirs p])

/-- Body of the `for anim in animation_list:` loop of `run_case` for one
animation name.  `objects` is the local variable of `run_case`: `none`
models the variable being unbound (the unsupported-subject path), in which
case evaluating `reset_tracks(objects)` raises NameError. -/
def anim_body (animal_name base_path : String) (objects : Option (List String))
    (mute_rig : List String) (start_frame : Int) (anim : String)
    (s : Scene) (tr : Trace) : Res × Trace :=
  let end_frame := s.frame_end
  let step : Int := 2
  let unmute_rig := [anim, "Rotation"]
  andThen (hide_objects ["ShadowPlane"] false s tr) (fun s1 tr1 =>
    match objects with
    | none => (Res.crashed s1, tr1)
    | some objs =>
      andThen (reset_tracks objs s1 tr1) (fun s2 tr2 =>
      andThen (mute_and_unmute objs [mute_rig] [unmute_rig] s2 tr2) (fun s3 tr3 =>
        let output_path := path_join (base_path ++ animal_name) anim
        let p4 := makedirs_if_needed output_path s3 tr3
        let p5 := write_animations2 (path_join output_path anim) step start_frame end_frame p4.1 p4.2
        (Res.ok p5.1, p5.2))))

def anim_loop (animal_name base_path : String) (objects : Option (List String))
    (mute_rig : List String) (start_frame : Int) :
    List String → Scene → Trace → Res × Trace
  | [], s, tr => (Res.ok s, tr)
  | anim :: rest, s, tr =>
    andThen (anim_body animal_name base_path objects mute_rig start_frame anim s tr)
      (fun s2 tr2 => anim_loop animal_name base_path objects mute_rig start_frame rest s2 tr2)

/-- `run_case(animal_name)`.  `blendDir` is `bpy.path.abspath("//")`, the
directory of the scene file.  The `match animal_name:` statement has one
literal case and a default, embedded as an if-then-else; in the default
branch the local `objects` stays unbound (`none`) and the scene frame end
is not written. -/
def run_case (animal_name blendDir : String) (s : Scene) (tr : Trace) : Res × Trace :=
  let base_path := path_join blendDir "renders" ++ "/"
  andThen (hide_objects ["visibleground"] true s tr) (fun s1 tr1 =>
  andThen (hide_objects ["ShadowPlane"] false s1 tr1) (fun s2 tr2 =>
    let mute_rig : List String := []
    let start_frame : Int := 1
    let osr : Option (List String) × Scene × Trace :=
      if animal_name = "squirrel" then
        let p := set_frame_end 160 s2 tr2
        (some ["rig"], p.1, p.2)
      else
        (none, s2, tr2 ++ [Event.printMsg ("Animal " ++ animal_name ++ " not supported!")])
    let animation_list := ["Idle1", "Walk"]
    anim_loop animal_name base_path osr.1 mute_rig start_frame animation_list osr.2.1 osr.2.2))

/-!
## Concrete scenes, trace observers, and claim-support definitions
-/

set_option maxRecDepth 1000000

/-- A Blender scene of the shape the script assumes ("rig" with the four
NLA tracks the run touches, a visible ground plane, a shadow plane), with
adversarial starting state: every track unmuted, ground visible, shadow
plane hidden. -/
def squirrelScene : Scene :=
  { objects :=
      [ { name := "rig",
          tracks := [ { name := "reset", mute := false },
                      { name := "Idle1", mute := false },
                      { name := "Walk", mute := false },
                      { name := "Rotation", mute := false } ],
          hide_render := false, hide_viewport := false },
        { name := "visibleground", tracks := [], hide_render := false, hide_viewport := false },
        { name := "ShadowPlane", tracks := [], hide_render := true, hide_viewport := true } ],
    frame := 0, frame_start := 1, frame_end := 250, render_filepath := "", dirs := [] }

/-- The run the script performs at module scope: `run_case("squirrel")`,
with the scene-file directory taken as the root of the relative output
paths. -/
def squirrelRun : Res × Trace := run_case "squirrel" "" squirrelScene []

/-- The state carried by a result (final state on `ok`, state at the fault
on `crashed`). -/
def resState : Res → Scene
  | Res.ok s => s
  | Res.crashed s => s

/-- The render calls of a trace whose output path starts with the given
prefix, with the scene each one rendered. -/
def rendersWithSnap (tr : Trace) (pfx : String) : List (Int × String × Scene) :=
  tr.filterMap (fun e => match e with
    | Event.render f p snap => if strStartsWith p pfx then some (f, p, snap) else none
    | _ => none)

/-- Three-digit zero-padded decimal, written from the output-layout wording
of the spec (`<frame:03d>`), independently of the code's `zfill`. -/
def pad3 (n : Nat) : String :=
  String.mk [Nat.digitChar (n / 100), Nat.digitChar (n / 10 % 10), Nat.digitChar (n % 10)]

/-- "visibleground" hidden in render and viewport, "ShadowPlane" visible in
both, in the given scene. -/
def flagsOkAt (snap : Scene) : Bool :=
  (match snap.getObj "visibleground" with
   | some o => o.hide_render && o.hide_viewport
   | none => false)
  &&
  (match snap.getObj "ShadowPlane" with
   | some o => !o.hide_render && !o.hide_viewport
   | none => false)

/-- The animations of `anims` that have at least one unmuted track of that
name somewhere in the scene. -/
def unmutedListAnims (anims : List String) (s : Scene) : List String :=
  anims.filter (fun a => s.objects.any (fun o => o.tracks.any (fun t => t.name == a && !t.mute)))

/-- Every render event of the trace sees at most one of the listed
animations unmuted. -/
def renderInvariantHolds (anims : List String) (tr : Trace) : Bool :=
  tr.all (fun e => match e with
    | Event.render _ _ snap => Nat.ble (unmutedListAnims anims snap).length 1
    | _ => true)

/-- Number of render invocations recorded in a trace. -/
def isRender : Event → Bool
  | Event.render _ _ _ => true
  | _ => false

def countRenders (tr : Trace) : Nat :=
  tr.countP isRender

/-!
## Claim C1: end-to-end squirrel scenario, Idle1 animation
-/

/-- C1: in the run `run_case("squirrel")` (frame end 160, animations
["Idle1", "Walk"], step 2, start frame 1), the "Idle1" animation renders
exactly the frames 1, 3, ..., 159 — 80 frames in increasing order — to
`renders/squirrel/Idle1/Idle1_001.png` through `Idle1_159.png` under the
scene-file directory, and at every one of those render calls
"visibleground" has both hidden flags true and "ShadowPlane" has both
hidden flags false. -/
theorem c1_squirrel_idle1_renders :
    (rendersWithSnap squirrelRun.2 "renders/squirrel/Idle1/").map (fun r => (r.1, r.2.1))
      = (List.range 80).map (fun i => (Int.ofNat (1 + 2 * i),
          "renders/squirrel/Idle1/Idle1_" ++ pad3 (1 + 2 * i) ++ ".png"))
    ∧ ((rendersWithSnap squirrelRun.2 "renders/squirrel/Idle1/").all
        (fun r => flagsOkAt r.2.2)) = true :=
  ⟨rfl, rfl⟩

/-!
## Claim C7: at most one listed animation unmuted at each render
-/

/-- C7: at every render call of the squirrel run — starting from the
adversarial state in which both listed animations are unmuted — at most one
of the animations in the animation list has an unmuted track anywhere in
the scene: each task mutes everything (via the reset pulse) before its
unmute pass runs. -/
theorem c7_at_most_one_animation_unmuted :
    renderInvariantHolds ["Idle1", "Walk"] squirrelRun.2 = true :=
  rfl

/-!
## Claim C3: the reset-pulse mutation sequence
-/

/-- A one-object scene for exercising the reset pulse. -/
def bobScene : Scene :=
  { objects := [ { name := "bob", tracks := [ { name := "reset", mute := false } ],
                   hide_render := false, hide_viewport := false } ],
    frame := 5, frame_start := 1, frame_end := 10, render_filepath := "", dirs := [] }

/-- The per-object mutation sequence the claim asserts, modelled from the
spec words — mute all layers, unmute "reset", mute all layers, unmute
"reset", set current frame to 1, mute "reset" — expanded to
individual-assignment granularity for an object with the given track
names. -/
def claimed_reset_sequence (x : String) (trackNames : List String) : Trace :=
  trackNames.map (fun nm => Event.setTrackMute x nm true)
  ++ [Event.setTrackMute x "reset" false]
  ++ trackNames.map (fun nm => Event.setTrackMute x nm true)
  ++ [Event.setTrackMute x "reset" false, Event.frameSet 1, Event.setTrackMute x "reset" true]

/-- C3 counterexample: already on a one-track object, the mutation sequence
`reset_tracks` actually performs is not the six-operation sequence the
claim states (the code starts with a frame-set to 1 and re-mutes "reset"
right after the first unmute, giving eight operations). -/
theorem c3_counterexample :
    (reset_tracks ["bob"] bobScene []).2 ≠ claimed_reset_sequence "bob" ["reset"] := by
  decide

/-- The per-object mutation sequence the source actually performs:
frame-set(1), mute-all, unmute "reset", mute "reset", mute-all, unmute
"reset", frame-set(1), mute "reset". -/
def actual_reset_sequence (x : String) (trackNames : List String) : Trace :=
  [Event.frameSet 1]
  ++ trackNames.map (fun nm => Event.setTrackMute x nm true)
  ++ [Event.setTrackMute x "reset" false, Event.setTrackMute x "reset" true]
  ++ trackNames.map (fun nm => Event.setTrackMute x nm true)
  ++ [Event.setTrackMute x "reset" false, Event.frameSet 1, Event.setTrackMute x "reset" true]

/-!
## Claim C4: unsupported subject identifiers
-/

/-- C4 counterexample: invoking `run_case` with the unsupported subject
"dog" does mutate state — the hidden-in-render flag of "visibleground" is
false in the starting scene and true in the state the run leaves behind
(the visibility calls run unconditionally before the subject dispatch). -/
theorem c4_counterexample :
    ((resState (run_case "dog" "" squirrelScene []).1).getObj "visibleground").map
        (fun o => o.hide_render) = some true
    ∧ (squirrelScene.getObj "visibleground").map (fun o => o.hide_render) = some false :=
  ⟨rfl, rfl⟩

/-!
## Claim C6: filename ordering
-/

/-- C6 counterexample: in the task with start −10, end −5, step 5, the
frames −10 and −5 are both sampled, satisfy every hypothesis of the claim
(−10 < −5 ≤ 999, in range, congruent to start mod step), their filenames
are distinct, yet the filename for −10 does not sort before the filename
for −5: Python `zfill` puts the sign first, so "-10" > "-05"
lexicographically. -/
theorem c6_counterexample :
    (-10 : Int) ∈ pyRange (-10) (-4) 5 ∧ (-5 : Int) ∈ pyRange (-10) (-4) 5
    ∧ ((-10 : Int) < -5) ∧ ((-5 : Int) ≤ 999)
    ∧ ((-10 : Int) - (-10)) % 5 = 0 ∧ ((-5 : Int) - (-10)) % 5 = 0
    ∧ frame_filename "p" (-10) ≠ frame_filename "p" (-5)
    ∧ ¬ (frame_filename "p" (-10) < frame_filename "p" (-5)) := by
  refine ⟨by decide, by decide, by decide, by decide, by decide, by decide, by decide, ?_⟩
  have e1 : frame_filename "p" (-10) = "p_-10.png" := rfl
  have e2 : frame_filename "p" (-5) = "p_-05.png" := rfl
  rw [e1, e2]
  intro h
  have h2 : ("p_-05.png" : String) < "p_-10.png" := by
    rw [String.lt_iff_toList_lt]
    show List.Lex (fun a b => a < b) "p_-05.png".toList "p_-10.png".toList
    have ha : "p_-05.png".toList = ['p', '_', '-', '0', '5', '.', 'p', 'n', 'g'] := rfl
    have hb : "p_-10.png".toList = ['p', '_', '-', '1', '0', '.', 'p', 'n', 'g'] := rfl
    rw [ha, hb]
    exact List.Lex.cons (List.Lex.cons (List.Lex.cons (List.Lex.rel (by decide))))
  exact absurd h (asymm h2)

/-!
## Claim C2: render count per animation task
-/

theorem countRenders_append (a b : Trace) :
    countRenders (a ++ b) = countRenders a + countRenders b :=
  List.countP_append isRender a b

theorem render_loop_trace_count (p : String) (fs : List Int) (s : Scene) (tr : Trace) :
    countRenders (render_loop p fs s tr).2 = countRenders tr + fs.length := by
  induction fs generalizing s tr with
  | nil => simp [render_loop]
  | cons f fs ih =>
    rw [render_loop, ih]
    simp [render_frame, countRenders, List.countP_append, List.countP_cons, isRender]
    omega

theorem pyRange_length (start stop step : Int) (h : 0 < step) :
    (pyRange start stop step).length = pyRangeLen start stop step := by
  rw [pyRange, if_pos h, List.length_map, List.length_range]

theorem pyRangeLen_formula (start e step : Int) (h1 : 1 ≤ step) (h2 : start ≤ e) :
    pyRangeLen start (e + 1) step = (e - start).toNat / step.toNat + 1 := by
  unfold pyRangeLen
  have hd : (e + 1 - start).toNat = (e - start).toNat + 1 := by omega
  rw [hd]
  have hx : (e - start).toNat + 1 + (step.toNat - 1) = (e - start).toNat + step.toNat := by
    omega
  rw [hx]
  exact Nat.add_div_right _ (by omega)

/-- C2: for every animation task with `end ≥ start` and `step ≥ 1`, the
frame loop of `write_animations2` invokes `render_frame` exactly
`floor((end − start) / step) + 1` times. -/
theorem c2_render_frame_call_count (p : String) (step start e : Int) (s : Scene)
    (h1 : 1 ≤ step) (h2 : start ≤ e) :
    countRenders (write_animations2 p step start e s []).2
      = (e - start).toNat / step.toNat + 1 := by
  unfold write_animations2
  rw [render_loop_trace_count, pyRange_length _ _ _ (by omega),
    pyRangeLen_formula _ _ _ h1 h2]
  simp [countRenders]

/-- C2 witness: the squirrel parameters (start 1, end 160, step 2) give
`floor(159 / 2) + 1 = 80` renders. -/
theorem c2_witness :
    (1 : Int) ≤ 2 ∧ (1 : Int) ≤ 160
    ∧ countRenders (write_animations2 "p" 2 1 160 bobScene []).2
        = ((160 : Int) - 1).toNat / (2 : Int).toNat + 1 :=
  ⟨by decide, by decide,
    c2_render_frame_call_count "p" 2 1 160 bobScene (by decide) (by decide)⟩

theorem zfill_repr_eq_pad3 : ∀ n : Nat, n < 1000 → zfill (Nat.repr n) 3 = pad3 n := by
  decide

theorem digitChar_lt_digitChar :
    ∀ a : Nat, a < 10 → ∀ b : Nat, b < 10 → (a < b ↔ Nat.digitChar a < Nat.digitChar b) := by
  decide

theorem lex_append_left (p : List Char) (a b : List Char)
    (h : List.Lex (fun x y => x < y) a b) :
    List.Lex (fun x y => x < y) (p ++ a) (p ++ b) := by
  induction p with
  | nil => exact h
  | cons c cs ih => exact List.Lex.cons ih

theorem pad3_lex_lt (n1 n2 : Nat) (h12 : n1 < n2) (h2 : n2 < 1000) (rest : List Char) :
    List.Lex (fun x y => x < y) ((pad3 n1).toList ++ rest) ((pad3 n2).toList ++ rest) := by
  have e1 : (pad3 n1).toList
      = [Nat.digitChar (n1 / 100), Nat.digitChar (n1 / 10 % 10), Nat.digitChar (n1 % 10)] := rfl
  have e2 : (pad3 n2).toList
      = [Nat.digitChar (n2 / 100), Nat.digitChar (n2 / 10 % 10), Nat.digitChar (n2 % 10)] := rfl
  rw [e1, e2]
  have hb1 : n1 / 100 < 10 := by omega
  have hb2 : n2 / 100 < 10 := by omega
  have hb3 : n1 / 10 % 10 < 10 := by omega
  have hb4 : n2 / 10 % 10 < 10 := by omega
  have hb5 : n1 % 10 < 10 := by omega
  have hb6 : n2 % 10 < 10 := by omega
  have hcase : n1 / 100 < n2 / 100
      ∨ (n1 / 100 = n2 / 100 ∧ (n1 / 10 % 10 < n2 / 10 % 10
        ∨ (n1 / 10 % 10 = n2 / 10 % 10 ∧ n1 % 10 < n2 % 10))) := by omega
  rcases hcase with hc | ⟨he1, hc | ⟨he2, hc⟩⟩
  · exact List.Lex.rel ((digitChar_lt_digitChar _ hb1 _ hb2).mp hc)
  · rw [he1]
    exact List.Lex.cons (List.Lex.rel ((digitChar_lt_digitChar _ hb3 _ hb4).mp hc))
  · rw [he1, he2]
    exact List.Lex.cons (List.Lex.cons
      (List.Lex.rel ((digitChar_lt_digitChar _ hb5 _ hb6).mp hc)))

/-- C6 amended: within one animation task, for sampled frames
`f1 < f2` in `[start, end]`, congruent to `start` modulo `step`, with
`f2 ≤ 999` and — the amendment — `f1 ≥ 0`, the emitted filename for `f1`
is distinct from and sorts lexicographically before the one for `f2`.
(Without `f1 ≥ 0` the claim fails: see the counterexample with negative
frames, whose sign-padded forms compare in the wrong order.) -/
theorem c6_filename_order (p : String) (start e step f1 f2 : Int)
    (h0 : 0 ≤ f1) (h12 : f1 < f2) (h999 : f2 ≤ 999)
    (hr1 : start ≤ f1 ∧ f1 ≤ e) (hr2 : start ≤ f2 ∧ f2 ≤ e)
    (hc1 : (f1 - start) % step = 0) (hc2 : (f2 - start) % step = 0) :
    frame_filename p f1 ≠ frame_filename p f2
      ∧ frame_filename p f1 < frame_filename p f2 := by
  obtain ⟨n1, rfl⟩ := Int.eq_ofNat_of_zero_le h0
  obtain ⟨n2, rfl⟩ := Int.eq_ofNat_of_zero_le (le_trans h0 (le_of_lt h12))
  have hn12 : n1 < n2 := by exact_mod_cast h12
  have hn2 : n2 < 1000 := by omega
  have hlt : frame_filename p (↑n1) < frame_filename p (↑n2) := by
    rw [String.lt_iff_toList_lt]
    have ez1 : zfill (toString ((n1 : Nat) : Int)) 3 = pad3 n1 := by
      rw [show toString ((n1 : Nat) : Int) = Nat.repr n1 from rfl]
      exact zfill_repr_eq_pad3 n1 (by omega)
    have ez2 : zfill (toString ((n2 : Nat) : Int)) 3 = pad3 n2 := by
      rw [show toString ((n2 : Nat) : Int) = Nat.repr n2 from rfl]
      exact zfill_repr_eq_pad3 n2 hn2
    show List.Lex (fun x y => x < y) (frame_filename p ↑n1).toList (frame_filename p ↑n2).toList
    rw [frame_filename, frame_filename, ez1, ez2]
    show List.Lex (fun x y => x < y) (p ++ "_" ++ pad3 n1 ++ ".png").data
      (p ++ "_" ++ pad3 n2 ++ ".png").data
    rw [String.data_append, String.data_append, String.data_append,
        String.data_append, String.data_append, String.data_append]
    show List.Lex (fun x y => x < y) (p.data ++ "_".data ++ (pad3 n1).toList ++ ".png".data)
      (p.data ++ "_".data ++ (pad3 n2).toList ++ ".png".data)
    simp only [List.append_assoc]
    apply lex_append_left
    apply lex_append_left
    exact pad3_lex_lt n1 n2 hn12 hn2 ".png".data
  exact ⟨ne_of_lt hlt, hlt⟩

/-- C6 witness: frames 1 and 3 of the squirrel task (start 1, end 160,
step 2). -/
theorem c6_witness :
    (0 : Int) ≤ 1 ∧ (1 : Int) < 3 ∧ (3 : Int) ≤ 999
    ∧ (frame_filename "renders/squirrel/Idle1/Idle1" 1
          ≠ frame_filename "renders/squirrel/Idle1/Idle1" 3
       ∧ frame_filename "renders/squirrel/Idle1/Idle1" 1
          < frame_filename "renders/squirrel/Idle1/Idle1" 3) :=
  ⟨by decide, by decide, by decide,
    c6_filename_order "renders/squirrel/Idle1/Idle1" 1 160 2 1 3 (by decide) (by decide)
      (by decide) ⟨by decide, by decide⟩ ⟨by decide, by decide⟩ (by decide) (by decide)⟩

/-!
## State lemmas for the remaining claims
-/


theorem andThen_ok (s : Scene) (tr : Trace) (f : Scene → Trace → Res × Trace) :
    andThen (Res.ok s, tr) f = f s tr := rfl

theorem andThen_crashed (s : Scene) (tr : Trace) (f : Scene → Trace → Res × Trace) :
    andThen (Res.crashed s, tr) f = (Res.crashed s, tr) := rfl

theorem muteAllTracks_name (m : Bool) (o : Obj) : (muteAllTracks m o).name = o.name := rfl

theorem setTrackMuteObj_name (y : String) (b : Bool) (o : Obj) :
    (setTrackMuteObj y b o).name = o.name := rfl

theorem setHideFlags_name (b : Bool) (o : Obj) : (setHideFlags b o).name = o.name := rfl

theorem find?_updFirstObj_self (n : String) (f : Obj → Obj)
    (hf : ∀ o : Obj, (f o).name = o.name) (l : List Obj) :
    (updFirstObj n f l).find? (fun o => o.name == n)
      = (l.find? (fun o => o.name == n)).map f := by
  induction l with
  | nil => rfl
  | cons o os ih =>
    by_cases h : (o.name == n) = true
    · simp [updFirstObj, h, List.find?_cons, hf]
    · simp [updFirstObj, h, List.find?_cons, ih]

theorem find?_updFirstObj_ne (n y : String) (f : Obj → Obj)
    (hf : ∀ o : Obj, (f o).name = o.name) (hne : y ≠ n) (l : List Obj) :
    (updFirstObj n f l).find? (fun o => o.name == y)
      = l.find? (fun o => o.name == y) := by
  induction l with
  | nil => rfl
  | cons o os ih =>
    by_cases h : (o.name == n) = true
    · have h2 : ((f o).name == y) = false := by
        rw [hf]
        have : o.name = n := by simpa using h
        simp [this]
        exact fun hx => hne hx.symm
      have h3 : (o.name == y) = false := by
        have : o.name = n := by simpa using h
        simp [this]
        exact fun hx => hne hx.symm
      simp [updFirstObj, h, List.find?_cons, h2, h3]
    · by_cases h4 : (o.name == y) = true
      · simp [updFirstObj, h, List.find?_cons, h4]
      · simp [updFirstObj, h, List.find?_cons, h4, ih]

theorem getObj_updObj_self (s : Scene) (n : String) (f : Obj → Obj)
    (hf : ∀ o : Obj, (f o).name = o.name) :
    (s.updObj n f).getObj n = (s.getObj n).map f :=
  find?_updFirstObj_self n f hf s.objects

theorem getObj_updObj_ne (s : Scene) (n y : String) (f : Obj → Obj)
    (hf : ∀ o : Obj, (f o).name = o.name) (hne : y ≠ n) :
    (s.updObj n f).getObj y = s.getObj y :=
  find?_updFirstObj_ne n y f hf hne s.objects

theorem updFirstObj_comp (n : String) (f g : Obj → Obj)
    (hf : ∀ o : Obj, (f o).name = o.name) (l : List Obj) :
    updFirstObj n g (updFirstObj n f l) = updFirstObj n (fun o => g (f o)) l := by
  induction l with
  | nil => rfl
  | cons o os ih =>
    by_cases h : (o.name == n) = true
    · have h2 : ((f o).name == n) = true := by rw [hf]; exact h
      simp [updFirstObj, h, h2]
    · simp [updFirstObj, h, ih]

theorem updObj_updObj (s : Scene) (n : String) (f g : Obj → Obj)
    (hf : ∀ o : Obj, (f o).name = o.name) :
    (s.updObj n f).updObj n g = s.updObj n (fun o => g (f o)) := by
  simp [Scene.updObj, updFirstObj_comp n f g hf]

theorem setMuteFirst_names (n : String) (b : Bool) (ts : List Track) :
    (setMuteFirst n b ts).map (fun t => t.name) = ts.map (fun t => t.name) := by
  induction ts with
  | nil => rfl
  | cons t ts ih =>
    by_cases h : (t.name == n) = true
    · simp [setMuteFirst, h]
    · simp [setMuteFirst, h, ih]

theorem muteAll_names (b : Bool) (ts : List Track) :
    (ts.map (fun t => { t with mute := b })).map (fun t => t.name)
      = ts.map (fun t => t.name) := by
  induction ts with
  | nil => rfl
  | cons t ts ih => simp [ih]

theorem any_name_of_names_eq (ts1 ts2 : List Track) (n : String)
    (h : ts1.map (fun t => t.name) = ts2.map (fun t => t.name)) :
    ts1.any (fun t => t.name == n) = ts2.any (fun t => t.name == n) := by
  induction ts1 generalizing ts2 with
  | nil =>
    cases ts2 with
    | nil => rfl
    | cons t ts => simp at h
  | cons t ts ih =>
    cases ts2 with
    | nil => simp at h
    | cons t2 ts2 =>
      simp only [List.map_cons, List.cons.injEq] at h
      simp [List.any_cons, h.1, ih ts2 h.2]

theorem hasTrack_muteAll (m : Bool) (o : Obj) (n : String) :
    hasTrack (muteAllTracks m o) n = hasTrack o n := by
  unfold hasTrack muteAllTracks
  exact any_name_of_names_eq _ _ n (muteAll_names m o.tracks)

theorem hasTrack_setTrackMuteObj (y : String) (b : Bool) (o : Obj) (n : String) :
    hasTrack (setTrackMuteObj y b o) n = hasTrack o n := by
  unfold hasTrack setTrackMuteObj
  exact any_name_of_names_eq _ _ n (setMuteFirst_names y b o.tracks)

theorem mute_tracks_eq (x : String) (m : Bool) (s : Scene) (tr : Trace) (o : Obj)
    (hobj : s.getObj x = some o) :
    mute_tracks x m s tr =
      (Res.ok (s.updObj x (muteAllTracks m)),
       tr ++ (o.tracks.map (fun t => t.name)).map (fun nm => Event.setTrackMute x nm m)) := by
  unfold mute_tracks
  rw [hobj]

theorem set_nla_mute_eq (x y : String) (b : Bool) (s : Scene) (tr : Trace) (o : Obj)
    (hobj : s.getObj x = some o) (ht : hasTrack o y = true) :
    set_nla_mute x y b s tr =
      (Res.ok (s.updObj x (setTrackMuteObj y b)), tr ++ [Event.setTrackMute x y b]) := by
  unfold set_nla_mute
  rw [hobj]
  simp [ht]

/-- The composite effect of the reset pulse on one object. -/
def resetObjFn (o : Obj) : Obj :=
  setTrackMuteObj "reset" true (setTrackMuteObj "reset" false (muteAllTracks true
    (setTrackMuteObj "reset" true (setTrackMuteObj "reset" false (muteAllTracks true o)))))

theorem reset_body_eq (x : String) (s : Scene) (tr : Trace) (o : Obj)
    (hobj : s.getObj x = some o) (hr : hasTrack o "reset" = true) :
    reset_body x s tr =
      (Res.ok { s.updObj x resetObjFn with frame := 1 },
       tr ++ actual_reset_sequence x (o.tracks.map (fun t => t.name))) := by
  have hname1 : ∀ o2 : Obj, (muteAllTracks true o2).name = o2.name := fun _ => rfl
  have hname2 : ∀ o2 : Obj, (setTrackMuteObj "reset" false o2).name = o2.name := fun _ => rfl
  have hname3 : ∀ o2 : Obj, (setTrackMuteObj "reset" true o2).name = o2.name := fun _ => rfl
  have h1 : ({ s with frame := 1 } : Scene).getObj x = some o := hobj
  unfold reset_body
  simp only [frame_set]
  rw [mute_tracks_eq x true _ _ o h1, andThen_ok]
  have h2 : (({ s with frame := 1 } : Scene).updObj x (muteAllTracks true)).getObj x
      = some (muteAllTracks true o) := by
    rw [getObj_updObj_self _ _ _ hname1, h1, Option.map_some']
  rw [set_nla_mute_eq x "reset" false _ _ _ h2 (by rw [hasTrack_muteAll]; exact hr), andThen_ok]
  rw [updObj_updObj _ _ _ _ hname1]
  have h3 : (({ s with frame := 1 } : Scene).updObj x
        (fun o2 => setTrackMuteObj "reset" false (muteAllTracks true o2))).getObj x
      = some (setTrackMuteObj "reset" false (muteAllTracks true o)) := by
    rw [getObj_updObj_self _ _ _ (fun o2 => by rw [hname2, hname1]), h1, Option.map_some']
  rw [set_nla_mute_eq x "reset" true _ _ _ h3
      (by rw [hasTrack_setTrackMuteObj, hasTrack_muteAll]; exact hr), andThen_ok]
  rw [updObj_updObj _ _ _ _ (fun o2 => by rw [hname2, hname1])]
  have h4 : (({ s with frame := 1 } : Scene).updObj x
        (fun o2 => setTrackMuteObj "reset" true (setTrackMuteObj "reset" false
          (muteAllTracks true o2)))).getObj x
      = some (setTrackMuteObj "reset" true (setTrackMuteObj "reset" false
          (muteAllTracks true o))) := by
    rw [getObj_updObj_self _ _ _ (fun o2 => by rw [hname3, hname2, hname1]), h1, Option.map_some']
  rw [mute_tracks_eq x true _ _ _ h4, andThen_ok]
  rw [updObj_updObj _ _ _ _ (fun o2 => by rw [hname3, hname2, hname1])]
  have h5 : (({ s with frame := 1 } : Scene).updObj x
        (fun o2 => muteAllTracks true (setTrackMuteObj "reset" true (setTrackMuteObj "reset" false
          (muteAllTracks true o2))))).getObj x
      = some (muteAllTracks true (setTrackMuteObj "reset" true (setTrackMuteObj "reset" false
          (muteAllTracks true o)))) := by
    rw [getObj_updObj_self _ _ _ (fun o2 => by rw [hname1, hname3, hname2, hname1]), h1, Option.map_some']
  rw [set_nla_mute_eq x "reset" false _ _ _ h5
      (by rw [hasTrack_muteAll, hasTrack_setTrackMuteObj, hasTrack_setTrackMuteObj,
              hasTrack_muteAll]; exact hr), andThen_ok]
  rw [updObj_updObj _ _ _ _ (fun o2 => by rw [hname1, hname3, hname2, hname1])]
  have h6 : (( ({ s with frame := 1 } : Scene).updObj x
        (fun o2 => setTrackMuteObj "reset" false (muteAllTracks true (setTrackMuteObj "reset" true
          (setTrackMuteObj "reset" false (muteAllTracks true o2)))))).getObj x)
      = some (setTrackMuteObj "reset" false (muteAllTracks true (setTrackMuteObj "reset" true
          (setTrackMuteObj "reset" false (muteAllTracks true o))))) := by
    rw [getObj_updObj_self _ _ _ (fun o2 => by rw [hname2, hname1, hname3, hname2, hname1]), h1, Option.map_some']
  have h6f : (( { (({ s with frame := 1 } : Scene).updObj x
        (fun o2 => setTrackMuteObj "reset" false (muteAllTracks true (setTrackMuteObj "reset" true
          (setTrackMuteObj "reset" false (muteAllTracks true o2)))))) with frame := 1 }).getObj x)
      = some (setTrackMuteObj "reset" false (muteAllTracks true (setTrackMuteObj "reset" true
          (setTrackMuteObj "reset" false (muteAllTracks true o))))) := h6
  rw [set_nla_mute_eq x "reset" true _ _ _ h6f
      (by rw [hasTrack_setTrackMuteObj, hasTrack_muteAll, hasTrack_setTrackMuteObj,
              hasTrack_setTrackMuteObj, hasTrack_muteAll]; exact hr)]
  simp only [Scene.updObj, actual_reset_sequence, List.append_assoc, Prod.mk.injEq,
    Res.ok.injEq, Scene.mk.injEq, List.append_cancel_left_eq, true_and, and_true, eq_self_iff_true]
  refine ⟨?_, ?_⟩
  · rw [updFirstObj_comp x _ _ (fun o2 => by rw [hname2, hname1, hname3, hname2, hname1])]
    rfl
  · have hn : (setTrackMuteObj "reset" true (setTrackMuteObj "reset" false
        (muteAllTracks true o))).tracks.map (fun t => t.name)
        = o.tracks.map (fun t => t.name) := by
      simp [setTrackMuteObj, muteAllTracks, setMuteFirst_names, muteAll_names]
    rw [hn]
    simp

theorem reset_body_ok_inv (x : String) (s : Scene) (tr : Trace) (s2 : Scene) (tr2 : Trace)
    (h : reset_body x s tr = (Res.ok s2, tr2)) :
    ∃ o, s.getObj x = some o ∧ hasTrack o "reset" = true := by
  rcases hobj : s.getObj x with _ | o
  · exfalso
    have h1 : ({ s with frame := 1 } : Scene).getObj x = none := hobj
    unfold reset_body at h
    simp only [frame_set] at h
    unfold mute_tracks at h
    rw [h1] at h
    simp [andThen] at h
  · by_cases hr : hasTrack o "reset" = true
    · exact ⟨o, rfl, hr⟩
    · exfalso
      have h1 : ({ s with frame := 1 } : Scene).getObj x = some o := hobj
      unfold reset_body at h
      simp only [frame_set] at h
      rw [mute_tracks_eq x true _ _ o h1, andThen_ok] at h
      have h2 : ((({ s with frame := 1 } : Scene).updObj x (muteAllTracks true))).getObj x
          = some (muteAllTracks true o) := by
        rw [getObj_updObj_self _ _ _ (fun o2 => muteAllTracks_name true o2), h1, Option.map_some']
      unfold set_nla_mute at h
      simp only [h2] at h
      rw [hasTrack_muteAll] at h
      simp [hr, andThen] at h

theorem setMuteFirst_collapse (n : String) (b1 b2 : Bool) (ts : List Track) :
    setMuteFirst n b2 (setMuteFirst n b1 ts) = setMuteFirst n b2 ts := by
  induction ts with
  | nil => rfl
  | cons t ts ih =>
    by_cases h : (t.name == n) = true
    · simp [setMuteFirst, h]
    · simp [setMuteFirst, h, ih]

theorem all_mute_map_muteAll (ts : List Track) :
    (ts.map (fun t => { t with mute := true })).all (fun t => t.mute) = true := by
  induction ts with
  | nil => rfl
  | cons t ts ih => simp [ih]

theorem all_mute_setMuteFirst_true (n : String) (ts : List Track)
    (h : ts.all (fun t => t.mute) = true) :
    (setMuteFirst n true ts).all (fun t => t.mute) = true := by
  induction ts with
  | nil => rfl
  | cons t ts ih =>
    simp only [List.all_cons, Bool.and_eq_true] at h
    by_cases hc : (t.name == n) = true
    · simp [setMuteFirst, hc, h.2]
    · simp [setMuteFirst, hc, h.1, ih h.2]

theorem resetObjFn_all_mute (o : Obj) :
    (resetObjFn o).tracks.all (fun t => t.mute) = true := by
  show (setMuteFirst "reset" true (setMuteFirst "reset" false
      ((setTrackMuteObj "reset" true (setTrackMuteObj "reset" false
        (muteAllTracks true o))).tracks.map (fun t => { t with mute := true })))).all
      (fun t => t.mute) = true
  rw [setMuteFirst_collapse]
  exact all_mute_setMuteFirst_true _ _ (all_mute_map_muteAll _)

theorem hasTrack_resetObjFn (o : Obj) (n : String) :
    hasTrack (resetObjFn o) n = hasTrack o n := by
  unfold resetObjFn
  rw [hasTrack_setTrackMuteObj, hasTrack_setTrackMuteObj, hasTrack_muteAll,
    hasTrack_setTrackMuteObj, hasTrack_setTrackMuteObj, hasTrack_muteAll]

theorem trackNamed_isSome_of_hasTrack (ts : List Track) (n : String)
    (h : ts.any (fun t => t.name == n) = true) :
    (trackNamed ts n).isSome = true := by
  unfold trackNamed
  rw [List.find?_isSome]
  rw [List.any_eq_true] at h
  exact h

theorem trackNamed_mute_of_all (ts : List Track) (n : String) (t : Track)
    (hall : ts.all (fun t => t.mute) = true) (hf : trackNamed ts n = some t) :
    t.mute = true := by
  have hm := List.mem_of_find?_eq_some hf
  rw [List.all_eq_true] at hall
  exact hall t hm

/-- The mute flag of the "reset" track of object `x` is true. -/
def resetMuteTrue (s : Scene) (x : String) : Bool :=
  match s.getObj x with
  | none => false
  | some o =>
    match trackNamed o.tracks "reset" with
    | none => false
    | some t => t.mute

/-- Every track of object `x` is muted. -/
def allTracksMuted (s : Scene) (x : String) : Bool :=
  match s.getObj x with
  | none => false
  | some o => o.tracks.all (fun t => t.mute)

theorem allTracksMuted_congr (s1 s2 : Scene) (x : String)
    (h : s1.getObj x = s2.getObj x) : allTracksMuted s1 x = allTracksMuted s2 x := by
  unfold allTracksMuted
  rw [h]

theorem resetMuteTrue_congr (s1 s2 : Scene) (x : String)
    (h : s1.getObj x = s2.getObj x) : resetMuteTrue s1 x = resetMuteTrue s2 x := by
  unfold resetMuteTrue
  rw [h]

theorem resetObjFn_name (o : Obj) : (resetObjFn o).name = o.name := rfl

theorem reset_body_post (x : String) (s : Scene) (tr : Trace) (s2 : Scene) (tr2 : Trace)
    (h : reset_body x s tr = (Res.ok s2, tr2)) :
    allTracksMuted s2 x = true ∧ resetMuteTrue s2 x = true ∧ s2.frame = 1 := by
  obtain ⟨o, hobj, hr⟩ := reset_body_ok_inv x s tr s2 tr2 h
  rw [reset_body_eq x s tr o hobj hr] at h
  have hs2 : s2 = { s.updObj x resetObjFn with frame := 1 } :=
    (Res.ok.inj (Prod.mk.inj h).1).symm
  subst hs2
  have hget : ({ s.updObj x resetObjFn with frame := 1 } : Scene).getObj x
      = some (resetObjFn o) := by
    show (s.updObj x resetObjFn).getObj x = some (resetObjFn o)
    rw [getObj_updObj_self _ _ _ resetObjFn_name, hobj, Option.map_some']
  refine ⟨?_, ?_, rfl⟩
  · unfold allTracksMuted
    simp only [hget]
    exact resetObjFn_all_mute o
  · have hsome : (trackNamed (resetObjFn o).tracks "reset").isSome = true := by
      apply trackNamed_isSome_of_hasTrack
      show hasTrack (resetObjFn o) "reset" = true
      rw [hasTrack_resetObjFn]
      exact hr
    rcases hf : trackNamed (resetObjFn o).tracks "reset" with _ | t
    · rw [hf] at hsome
      simp at hsome
    · unfold resetMuteTrue
      simp only [hget, hf]
      exact trackNamed_mute_of_all _ _ _ (resetObjFn_all_mute o) hf

theorem reset_body_pres (y x : String) (hne : x ≠ y) (s : Scene) (tr : Trace)
    (s2 : Scene) (tr2 : Trace) (h : reset_body y s tr = (Res.ok s2, tr2)) :
    s2.getObj x = s.getObj x := by
  obtain ⟨o, hobj, hr⟩ := reset_body_ok_inv y s tr s2 tr2 h
  rw [reset_body_eq y s tr o hobj hr] at h
  have hs2 : s2 = { s.updObj y resetObjFn with frame := 1 } :=
    (Res.ok.inj (Prod.mk.inj h).1).symm
  subst hs2
  show (s.updObj y resetObjFn).getObj x = s.getObj x
  exact getObj_updObj_ne _ _ _ _ resetObjFn_name hne

theorem reset_tracks_pres_both (names : List String) (x : String) :
    ∀ (s : Scene) (tr : Trace) (s3 : Scene) (tr3 : Trace),
    reset_tracks names s tr = (Res.ok s3, tr3) →
    allTracksMuted s x = true → resetMuteTrue s x = true →
    allTracksMuted s3 x = true ∧ resetMuteTrue s3 x = true := by
  induction names with
  | nil =>
    intro s tr s3 tr3 h hA hR
    unfold reset_tracks at h
    obtain ⟨h1, _⟩ := Prod.mk.inj h
    rw [← Res.ok.inj h1]
    exact ⟨hA, hR⟩
  | cons y ys ih =>
    intro s tr s3 tr3 h hA hR
    unfold reset_tracks at h
    rcases hb : reset_body y s tr with ⟨rb, trb⟩
    rw [hb] at h
    cases rb with
    | crashed sc =>
      rw [andThen_crashed] at h
      exact absurd (Prod.mk.inj h).1 (by simp)
    | ok sm =>
      rw [andThen_ok] at h
      by_cases hxy : x = y
      · subst hxy
        obtain ⟨hA2, hR2, _⟩ := reset_body_post x s tr sm trb hb
        exact ih sm trb s3 tr3 h hA2 hR2
      · have hpres := reset_body_pres y x hxy s tr sm trb hb
        exact ih sm trb s3 tr3 h
          (by rw [allTracksMuted_congr sm s x hpres]; exact hA)
          (by rw [resetMuteTrue_congr sm s x hpres]; exact hR)

theorem reset_tracks_est (names : List String) (x : String) :
    ∀ (s : Scene) (tr : Trace) (s3 : Scene) (tr3 : Trace),
    reset_tracks names s tr = (Res.ok s3, tr3) → x ∈ names →
    allTracksMuted s3 x = true ∧ resetMuteTrue s3 x = true := by
  induction names with
  | nil =>
    intro s tr s3 tr3 h hx
    simp at hx
  | cons y ys ih =>
    intro s tr s3 tr3 h hx
    unfold reset_tracks at h
    rcases hb : reset_body y s tr with ⟨rb, trb⟩
    rw [hb] at h
    cases rb with
    | crashed sc =>
      rw [andThen_crashed] at h
      exact absurd (Prod.mk.inj h).1 (by simp)
    | ok sm =>
      rw [andThen_ok] at h
      rcases List.mem_cons.mp hx with rfl | hx2
      · obtain ⟨hA2, hR2, _⟩ := reset_body_post x s tr sm trb hb
        exact reset_tracks_pres_both ys x sm trb s3 tr3 h hA2 hR2
      · exact ih sm trb s3 tr3 h hx2

theorem reset_tracks_frame (names : List String) :
    ∀ (s : Scene) (tr : Trace) (s3 : Scene) (tr3 : Trace),
    reset_tracks names s tr = (Res.ok s3, tr3) → names ≠ [] → s3.frame = 1 := by
  induction names with
  | nil =>
    intro s tr s3 tr3 h hne
    exact absurd rfl hne
  | cons y ys ih =>
    intro s tr s3 tr3 h hne
    unfold reset_tracks at h
    rcases hb : reset_body y s tr with ⟨rb, trb⟩
    rw [hb] at h
    cases rb with
    | crashed sc =>
      rw [andThen_crashed] at h
      exact absurd (Prod.mk.inj h).1 (by simp)
    | ok sm =>
      rw [andThen_ok] at h
      cases ys with
      | nil =>
        unfold reset_tracks at h
        obtain ⟨h1, _⟩ := Prod.mk.inj h
        rw [← Res.ok.inj h1]
        exact (reset_body_post y s tr sm trb hb).2.2
      | cons z zs => exact ih sm trb s3 tr3 h (by simp)

/-- C3 amended: for every object name processed by `reset_tracks` (here a
one-element list, with the object and its "reset" track resolving), the
sequence of mute and frame mutations performed on that object is exactly:
frame-set(1), mute all layers, unmute "reset", mute "reset", mute all
layers, unmute "reset", frame-set(1), mute "reset", in that order with
nothing else interleaved — two operations more than the spec's sequence. -/
theorem c3_reset_sequence (x : String) (s : Scene) (tr : Trace) (o : Obj)
    (hobj : s.getObj x = some o) (hr : hasTrack o "reset" = true) :
    (reset_tracks [x] s tr).2
      = tr ++ actual_reset_sequence x (o.tracks.map (fun t => t.name)) := by
  unfold reset_tracks
  rw [reset_body_eq x s tr o hobj hr, andThen_ok]
  rfl

theorem c3_witness :
    hasTrack ({ name := "bob", tracks := [ { name := "reset", mute := false } ],
                hide_render := false, hide_viewport := false } : Obj) "reset" = true
    ∧ (reset_tracks ["bob"] bobScene []).2
        = [] ++ actual_reset_sequence "bob"
            (([ { name := "reset", mute := false } ] : List Track).map (fun t => t.name)) :=
  ⟨by decide,
   c3_reset_sequence "bob" bobScene []
     ({ name := "bob", tracks := [ { name := "reset", mute := false } ],
         hide_render := false, hide_viewport := false } : Obj) (by rfl) (by decide)⟩

/-- C5: for every non-empty list of object names and every starting state,
when `reset_tracks` returns normally each processed object's "reset" layer
is left muted and the scene's current frame is 1. -/
theorem c5_reset_leaves_muted_at_frame1 (names : List String) (s s2 : Scene)
    (tr tr2 : Trace) (hne : names ≠ [])
    (h : reset_tracks names s tr = (Res.ok s2, tr2)) :
    (∀ x ∈ names, resetMuteTrue s2 x = true) ∧ s2.frame = 1 :=
  ⟨fun x hx => (reset_tracks_est names x s tr s2 tr2 h hx).2,
   reset_tracks_frame names s tr s2 tr2 h hne⟩

theorem c5_witness :
    (["bob"] : List String) ≠ []
    ∧ (∀ x ∈ (["bob"] : List String),
        resetMuteTrue (resState (reset_tracks ["bob"] bobScene []).1) x = true)
    ∧ (resState (reset_tracks ["bob"] bobScene []).1).frame = 1 := by
  have h := c5_reset_leaves_muted_at_frame1 ["bob"] bobScene
    (resState (reset_tracks ["bob"] bobScene []).1) []
    ((reset_tracks ["bob"] bobScene []).2) (by simp) (by rfl)
  exact ⟨by simp, h.1, h.2⟩

/-- C9: after `reset_tracks` returns normally, every animation layer of
each processed object — not only "reset" — has its mute flag true,
regardless of the layers' starting mute states. -/
theorem c9_reset_mutes_all_layers (names : List String) (x : String) (s s2 : Scene)
    (tr tr2 : Trace) (hx : x ∈ names)
    (h : reset_tracks names s tr = (Res.ok s2, tr2)) :
    allTracksMuted s2 x = true :=
  (reset_tracks_est names x s tr s2 tr2 h hx).1

theorem c9_witness :
    ("bob" : String) ∈ (["bob"] : List String)
    ∧ allTracksMuted (resState (reset_tracks ["bob"] bobScene []).1) "bob" = true := by
  have h := c9_reset_mutes_all_layers ["bob"] "bob" bobScene
    (resState (reset_tracks ["bob"] bobScene []).1) []
    ((reset_tracks ["bob"] bobScene []).2) (by simp) (by rfl)
  exact ⟨by simp, h⟩

theorem setHideFlags_name_fix (b : Bool) (o : Obj)
    (h1 : o.hide_render = b) (h2 : o.hide_viewport = b) : setHideFlags b o = o := by
  cases o with
  | mk nm ts hr hv =>
    simp only [setHideFlags]
    simp at h1 h2
    rw [h1, h2]

theorem updFirstObj_fixed (n : String) (f : Obj → Obj) (l : List Obj)
    (h : ∀ o : Obj, l.find? (fun o2 => o2.name == n) = some o → f o = o) :
    updFirstObj n f l = l := by
  induction l with
  | nil => rfl
  | cons o os ih =>
    by_cases hc : (o.name == n) = true
    · have := h o (by simp [List.find?_cons, hc])
      simp [updFirstObj, hc, this]
    · have hc2 : (o.name == n) = false := by simpa using hc
      have ih2 := ih (fun o2 ho2 => h o2 (by simp [List.find?_cons, hc2]; exact ho2))
      simp [updFirstObj, hc, ih2]

/-- Both visibility flags of the named object resolve and hold value `b`. -/
def FlagsSet (s : Scene) (n : String) (b : Bool) : Prop :=
  ∃ o, s.getObj n = some o ∧ o.hide_render = b ∧ o.hide_viewport = b

theorem flagsSet_step_pres (s : Scene) (m n : String) (b : Bool)
    (h : FlagsSet s n b) : FlagsSet (s.updObj m (setHideFlags b)) n b := by
  obtain ⟨o, ho, h1, h2⟩ := h
  by_cases hnm : n = m
  · subst hnm
    refine ⟨setHideFlags b o, ?_, rfl, rfl⟩
    rw [getObj_updObj_self _ _ _ (setHideFlags_name b), ho, Option.map_some']
  · exact ⟨o, by rw [getObj_updObj_ne _ _ _ _ (setHideFlags_name b) hnm]; exact ho, h1, h2⟩

theorem hide_pres_flagsSet (names : List String) (b : Bool) :
    ∀ (s : Scene) (tr : Trace) (s2 : Scene) (tr2 : Trace) (n : String),
    hide_objects names b s tr = (Res.ok s2, tr2) → FlagsSet s n b → FlagsSet s2 n b := by
  induction names with
  | nil =>
    intro s tr s2 tr2 n h hF
    unfold hide_objects at h
    obtain ⟨h1, _⟩ := Prod.mk.inj h
    rw [← Res.ok.inj h1]
    exact hF
  | cons m ms ih =>
    intro s tr s2 tr2 n h hF
    unfold hide_objects at h
    rcases ho : s.getObj m with _ | o
    · rw [ho] at h
      exact absurd (Prod.mk.inj h).1 (by simp)
    · rw [ho] at h
      exact ih _ _ _ _ n h (flagsSet_step_pres s m n b hF)

theorem hide_ok_flags (names : List String) (b : Bool) :
    ∀ (s : Scene) (tr : Trace) (s2 : Scene) (tr2 : Trace),
    hide_objects names b s tr = (Res.ok s2, tr2) → ∀ n ∈ names, FlagsSet s2 n b := by
  induction names with
  | nil =>
    intro s tr s2 tr2 h n hn
    simp at hn
  | cons m ms ih =>
    intro s tr s2 tr2 h n hn
    unfold hide_objects at h
    rcases ho : s.getObj m with _ | o
    · rw [ho] at h
      exact absurd (Prod.mk.inj h).1 (by simp)
    · rw [ho] at h
      rcases List.mem_cons.mp hn with rfl | hn2
      · refine hide_pres_flagsSet ms b _ _ _ _ n h ?_
        refine ⟨setHideFlags b o, ?_, rfl, rfl⟩
        rw [getObj_updObj_self _ _ _ (setHideFlags_name b), ho, Option.map_some']
      · exact ih _ _ _ _ h n hn2

theorem hide_fixed (names : List String) (b : Bool) :
    ∀ (s : Scene) (tr : Trace),
    (∀ n ∈ names, FlagsSet s n b) →
    (hide_objects names b s tr).1 = Res.ok s := by
  induction names with
  | nil =>
    intro s tr hF
    rfl
  | cons m ms ih =>
    intro s tr hF
    obtain ⟨o, ho, h1, h2⟩ := hF m (by simp)
    unfold hide_objects
    rw [ho]
    have hupd : s.updObj m (setHideFlags b) = s := by
      unfold Scene.updObj
      have : updFirstObj m (setHideFlags b) s.objects = s.objects := by
        apply updFirstObj_fixed
        intro o2 ho2
        have : o2 = o := by
          have hx : s.getObj m = some o2 := ho2
          rw [ho] at hx
          exact (Option.some.inj hx).symm
        rw [this]
        exact setHideFlags_name_fix b o h1 h2
      rw [this]
    rw [hupd]
    exact ih s _ (fun n hn => hF n (by simp [hn]))

/-- C8: for every list of object names and every starting state, running
`hide_objects(names, true)` twice in succession leaves exactly the same
final state (in particular the same hidden-in-render and
hidden-in-viewport flags on every named object) as running it once. -/
theorem c8_hide_objects_idempotent (names : List String) (s : Scene) (tr : Trace) :
    (andThen (hide_objects names true s tr)
      (fun s2 tr2 => hide_objects names true s2 tr2)).1
      = (hide_objects names true s tr).1 := by
  rcases h : hide_objects names true s tr with ⟨r, tr2⟩
  cases r with
  | crashed sc => rw [andThen_crashed]
  | ok s2 =>
    rw [andThen_ok]
    exact hide_fixed names true s2 tr2 (hide_ok_flags names true s tr s2 tr2 h)

theorem hide_objects_one_eq (n : String) (b : Bool) (s : Scene) (tr : Trace) (o : Obj)
    (hobj : s.getObj n = some o) :
    hide_objects [n] b s tr =
      (Res.ok (s.updObj n (setHideFlags b)),
       tr ++ [Event.setHideRender n b, Event.setHideViewport n b]) := by
  unfold hide_objects
  rw [hobj]
  rfl

theorem anim_body_unbound_eq (animal base : String) (mute_rig : List String) (sf : Int)
    (anim : String) (s : Scene) (tr : Trace) (o : Obj)
    (hsp : s.getObj "ShadowPlane" = some o) :
    anim_body animal base none mute_rig sf anim s tr =
      (Res.crashed (s.updObj "ShadowPlane" (setHideFlags false)),
       tr ++ [Event.setHideRender "ShadowPlane" false,
              Event.setHideViewport "ShadowPlane" false]) := by
  unfold anim_body
  rw [hide_objects_one_eq _ _ _ _ o hsp, andThen_ok]

/-- C4 amended: for every subject other than "squirrel", `run_case`
produces the diagnostic, but only after unconditionally hiding
"visibleground" and showing "ShadowPlane"; the loop then shows
"ShadowPlane" once more and the run aborts with an unbound-variable fault
at `reset_tracks(objects)`.  No render and no directory creation occur. -/
theorem c4_unsupported_behavior (animal blendDir : String) (s : Scene) (tr : Trace)
    (ovg osp : Obj) (hne : animal ≠ "squirrel")
    (hvg : s.getObj "visibleground" = some ovg)
    (hsp : s.getObj "ShadowPlane" = some osp) :
    run_case animal blendDir s tr =
      (Res.crashed
        (((s.updObj "visibleground" (setHideFlags true)).updObj "ShadowPlane"
            (setHideFlags false)).updObj "ShadowPlane" (setHideFlags false)),
       tr ++ [Event.setHideRender "visibleground" true,
              Event.setHideViewport "visibleground" true,
              Event.setHideRender "ShadowPlane" false,
              Event.setHideViewport "ShadowPlane" false,
              Event.printMsg ("Animal " ++ animal ++ " not supported!"),
              Event.setHideRender "ShadowPlane" false,
              Event.setHideViewport "ShadowPlane" false]) := by
  have hsp1 : (s.updObj "visibleground" (setHideFlags true)).getObj "ShadowPlane"
      = some osp := by
    rw [getObj_updObj_ne _ _ _ _ (setHideFlags_name true) (by decide)]
    exact hsp
  have hsp2 : ((s.updObj "visibleground" (setHideFlags true)).updObj "ShadowPlane"
      (setHideFlags false)).getObj "ShadowPlane" = some (setHideFlags false osp) := by
    rw [getObj_updObj_self _ _ _ (setHideFlags_name false), hsp1, Option.map_some']
  unfold run_case
  rw [hide_objects_one_eq _ _ _ _ ovg hvg, andThen_ok]
  rw [hide_objects_one_eq _ _ _ _ osp hsp1, andThen_ok]
  rw [if_neg hne]
  unfold anim_loop
  rw [anim_body_unbound_eq _ _ _ _ _ _ _ (setHideFlags false osp) hsp2, andThen_crashed]
  simp

theorem c4_witness :
    ("dog" : String) ≠ "squirrel"
    ∧ (run_case "dog" "" squirrelScene []).1 =
        Res.crashed (((squirrelScene.updObj "visibleground" (setHideFlags true)).updObj
          "ShadowPlane" (setHideFlags false)).updObj "ShadowPlane" (setHideFlags false)) := by
  have h := c4_unsupported_behavior "dog" "" squirrelScene []
    ({ name := "visibleground", tracks := [], hide_render := false, hide_viewport := false } : Obj)
    ({ name := "ShadowPlane", tracks := [], hide_render := true, hide_viewport := true } : Obj)
    (by decide) (by rfl) (by rfl)
  exact ⟨by decide, by rw [h]⟩

/-- Mute value of the first track named `y` on the first object named `x`. -/
def trackMuteVal (s : Scene) (x y : String) : Option Bool :=
  match s.getObj x with
  | none => none
  | some o => (trackNamed o.tracks y).map (fun t => t.mute)

theorem trackNamed_setMuteFirst_self (n : String) (b : Bool) (ts : List Track) :
    trackNamed (setMuteFirst n b ts) n
      = (trackNamed ts n).map (fun t => { t with mute := b }) := by
  induction ts with
  | nil => rfl
  | cons t ts ih =>
    by_cases h : (t.name == n) = true
    · simp [setMuteFirst, h, trackNamed, List.find?_cons]
    · have h2 : (t.name == n) = false := by simpa using h
      simp [setMuteFirst, h2, trackNamed, List.find?_cons] at ih ⊢
      exact ih

theorem trackNamed_setMuteFirst_ne (m n : String) (b : Bool) (hne : n ≠ m) (ts : List Track) :
    trackNamed (setMuteFirst m b ts) n = trackNamed ts n := by
  induction ts with
  | nil => rfl
  | cons t ts ih =>
    by_cases h : (t.name == m) = true
    · have hm : t.name = m := by simpa using h
      have h2 : (t.name == n) = false := by simp [hm]; exact fun hx => hne hx.symm
      simp [setMuteFirst, h, trackNamed, List.find?_cons, h2]
    · by_cases h3 : (t.name == n) = true
      · simp [setMuteFirst, h, trackNamed, List.find?_cons, h3]
      · have h2 : (t.name == n) = false := by simpa using h3
        simp [setMuteFirst, h, trackNamed, List.find?_cons, h2] at ih ⊢
        exact ih

theorem set_nla_mute_ok_inv (x y : String) (b : Bool) (s : Scene) (tr : Trace)
    (s2 : Scene) (tr2 : Trace) (h : set_nla_mute x y b s tr = (Res.ok s2, tr2)) :
    ∃ o, s.getObj x = some o ∧ hasTrack o y = true
      ∧ s2 = s.updObj x (setTrackMuteObj y b) := by
  unfold set_nla_mute at h
  rcases ho : s.getObj x with _ | o
  · simp only [ho] at h
    exact absurd (Prod.mk.inj h).1 (by simp)
  · simp only [ho] at h
    by_cases ht : hasTrack o y = true
    · rw [if_pos ht] at h
      exact ⟨o, rfl, ht, (Res.ok.inj (Prod.mk.inj h).1).symm⟩
    · rw [if_neg ht] at h
      exact absurd (Prod.mk.inj h).1 (by simp)

theorem trackMuteVal_after_set_self (s : Scene) (x y : String) (b : Bool) (o : Obj)
    (ho : s.getObj x = some o) (ht : hasTrack o y = true) :
    trackMuteVal (s.updObj x (setTrackMuteObj y b)) x y = some b := by
  unfold trackMuteVal
  rw [getObj_updObj_self _ _ _ (setTrackMuteObj_name y b), ho, Option.map_some']
  show (trackNamed (setMuteFirst y b o.tracks) y).map (fun t => t.mute) = some b
  rw [trackNamed_setMuteFirst_self]
  rcases hf : trackNamed o.tracks y with _ | t
  · have := trackNamed_isSome_of_hasTrack o.tracks y ht
    rw [hf] at this
    simp at this
  · simp

theorem trackMuteVal_after_set_ne (s : Scene) (x y z : String) (b : Bool)
    (hne : y ≠ z) :
    trackMuteVal (s.updObj x (setTrackMuteObj z b)) x y = trackMuteVal s x y := by
  unfold trackMuteVal
  rw [getObj_updObj_self _ _ _ (setTrackMuteObj_name z b)]
  rcases ho : s.getObj x with _ | o
  · rfl
  · show (trackNamed (setMuteFirst z b o.tracks) y).map (fun t => t.mute)
        = (trackNamed o.tracks y).map (fun t => t.mute)
    rw [trackNamed_setMuteFirst_ne z y b hne]

theorem trackMuteVal_congr (s1 s2 : Scene) (x y : String)
    (h : s1.getObj x = s2.getObj x) : trackMuteVal s1 x y = trackMuteVal s2 x y := by
  unfold trackMuteVal
  rw [h]

theorem mute_pass_pres_other (x2 x : String) (hne : x ≠ x2) (names : List String) (b : Bool) :
    ∀ (s : Scene) (tr : Trace) (s2 : Scene) (tr2 : Trace),
    mute_pass x2 names b s tr = (Res.ok s2, tr2) → s2.getObj x = s.getObj x := by
  induction names with
  | nil =>
    intro s tr s2 tr2 h
    unfold mute_pass at h
    rw [← Res.ok.inj (Prod.mk.inj h).1]
  | cons z zs ih =>
    intro s tr s2 tr2 h
    unfold mute_pass at h
    rcases hb : set_nla_mute x2 z b s tr with ⟨rb, trb⟩
    rw [hb] at h
    cases rb with
    | crashed sc =>
      rw [andThen_crashed] at h
      exact absurd (Prod.mk.inj h).1 (by simp)
    | ok sm =>
      rw [andThen_ok] at h
      obtain ⟨o, ho, ht, hsm⟩ := set_nla_mute_ok_inv x2 z b s tr sm trb hb
      rw [ih sm trb s2 tr2 h, hsm]
      exact getObj_updObj_ne _ _ _ _ (setTrackMuteObj_name z b) hne

theorem mute_pass_pres_track (x : String) (names : List String) (b : Bool) (y : String)
    (hy : y ∉ names) :
    ∀ (s : Scene) (tr : Trace) (s2 : Scene) (tr2 : Trace),
    mute_pass x names b s tr = (Res.ok s2, tr2) →
    trackMuteVal s2 x y = trackMuteVal s x y := by
  induction names with
  | nil =>
    intro s tr s2 tr2 h
    unfold mute_pass at h
    rw [← Res.ok.inj (Prod.mk.inj h).1]
  | cons z zs ih =>
    intro s tr s2 tr2 h
    have hyz : y ≠ z := fun hx => hy (by simp [hx])
    have hyzs : y ∉ zs := fun hx => hy (by simp [hx])
    unfold mute_pass at h
    rcases hb : set_nla_mute x z b s tr with ⟨rb, trb⟩
    rw [hb] at h
    cases rb with
    | crashed sc =>
      rw [andThen_crashed] at h
      exact absurd (Prod.mk.inj h).1 (by simp)
    | ok sm =>
      rw [andThen_ok] at h
      obtain ⟨o, ho, ht, hsm⟩ := set_nla_mute_ok_inv x z b s tr sm trb hb
      rw [ih hyzs sm trb s2 tr2 h, hsm]
      exact trackMuteVal_after_set_ne s x y z b hyz

theorem mute_pass_post (x : String) (names : List String) (y : String) :
    ∀ (s : Scene) (tr : Trace) (s2 : Scene) (tr2 : Trace), y ∈ names →
    mute_pass x names false s tr = (Res.ok s2, tr2) →
    trackMuteVal s2 x y = some false := by
  induction names with
  | nil =>
    intro s tr s2 tr2 hy h
    simp at hy
  | cons z zs ih =>
    intro s tr s2 tr2 hy h
    unfold mute_pass at h
    rcases hb : set_nla_mute x z false s tr with ⟨rb, trb⟩
    rw [hb] at h
    cases rb with
    | crashed sc =>
      rw [andThen_crashed] at h
      exact absurd (Prod.mk.inj h).1 (by simp)
    | ok sm =>
      rw [andThen_ok] at h
      by_cases hyzs : y ∈ zs
      · exact ih sm trb s2 tr2 hyzs h
      · have hyz : y = z := by
          rcases List.mem_cons.mp hy with h1 | h1
          · exact h1
          · exact absurd h1 hyzs
        subst hyz
        obtain ⟨o, ho, ht, hsm⟩ := set_nla_mute_ok_inv x y false s tr sm trb hb
        rw [mute_pass_pres_track x zs false y hyzs sm trb s2 tr2 h, hsm]
        exact trackMuteVal_after_set_self s x y false o ho ht

theorem mute_and_unmute_one_post (x : String) (ml ul : List String) (y : String)
    (hy : y ∈ ul) (s : Scene) (tr : Trace) (s2 : Scene) (tr2 : Trace)
    (h : mute_and_unmute_one x ml ul s tr = (Res.ok s2, tr2)) :
    trackMuteVal s2 x y = some false := by
  unfold mute_and_unmute_one at h
  rcases hb : mute_pass x ml true s tr with ⟨rb, trb⟩
  rw [hb] at h
  cases rb with
  | crashed sc =>
    rw [andThen_crashed] at h
    exact absurd (Prod.mk.inj h).1 (by simp)
  | ok sm =>
    rw [andThen_ok] at h
    exact mute_pass_post x ul y sm trb s2 tr2 hy h

theorem mute_and_unmute_one_pres_other (x2 x : String) (hne : x ≠ x2) (ml ul : List String)
    (s : Scene) (tr : Trace) (s2 : Scene) (tr2 : Trace)
    (h : mute_and_unmute_one x2 ml ul s tr = (Res.ok s2, tr2)) :
    s2.getObj x = s.getObj x := by
  unfold mute_and_unmute_one at h
  rcases hb : mute_pass x2 ml true s tr with ⟨rb, trb⟩
  rw [hb] at h
  cases rb with
  | crashed sc =>
    rw [andThen_crashed] at h
    exact absurd (Prod.mk.inj h).1 (by simp)
  | ok sm =>
    rw [andThen_ok] at h
    rw [mute_pass_pres_other x2 x hne ul false sm trb s2 tr2 h]
    exact mute_pass_pres_other x2 x hne ml true s tr sm trb hb

theorem muteUnmuteLoop_pres (x : String) (ml ul : List String) (y : String) (hy : y ∈ ul) :
    ∀ (zs : List (String × List String × List String)),
    (∀ t ∈ zs, t.1 = x → t = (x, ml, ul)) →
    ∀ (s : Scene) (tr : Trace) (s2 : Scene) (tr2 : Trace),
    muteUnmuteLoop zs s tr = (Res.ok s2, tr2) →
    trackMuteVal s x y = some false → trackMuteVal s2 x y = some false := by
  intro zs
  induction zs with
  | nil =>
    intro hu s tr s2 tr2 h hP
    unfold muteUnmuteLoop at h
    rw [← Res.ok.inj (Prod.mk.inj h).1]
    exact hP
  | cons t ts ih =>
    intro hu s tr s2 tr2 h hP
    rcases t with ⟨a, m, u⟩
    unfold muteUnmuteLoop at h
    rcases hb : mute_and_unmute_one a m u s tr with ⟨rb, trb⟩
    rw [hb] at h
    cases rb with
    | crashed sc =>
      rw [andThen_crashed] at h
      exact absurd (Prod.mk.inj h).1 (by simp)
    | ok sm =>
      rw [andThen_ok] at h
      by_cases hax : a = x
      · subst hax
        have ht := hu (a, m, u) (by simp) rfl
        obtain ⟨he1, he2⟩ : m = ml ∧ u = ul :=
          ⟨congrArg (fun t => t.2.1) ht, congrArg (fun t => t.2.2) ht⟩
        rw [he1, he2] at hb
        have hest := mute_and_unmute_one_post a ml ul y hy s tr sm trb hb
        exact ih (fun t2 ht2 hx2 => hu t2 (by simp [ht2]) hx2) sm trb s2 tr2 h hest
      · have hpres := mute_and_unmute_one_pres_other a x
          (fun hx => hax hx.symm) m u s tr sm trb hb
        have hP2 : trackMuteVal sm x y = some false := by
          rw [trackMuteVal_congr sm s x y hpres]
          exact hP
        exact ih (fun t2 ht2 hx2 => hu t2 (by simp [ht2]) hx2) sm trb s2 tr2 h hP2

theorem muteUnmuteLoop_est (x : String) (ml ul : List String) (y : String) (hy : y ∈ ul) :
    ∀ (zs : List (String × List String × List String)),
    (x, ml, ul) ∈ zs →
    (∀ t ∈ zs, t.1 = x → t = (x, ml, ul)) →
    ∀ (s : Scene) (tr : Trace) (s2 : Scene) (tr2 : Trace),
    muteUnmuteLoop zs s tr = (Res.ok s2, tr2) →
    trackMuteVal s2 x y = some false := by
  intro zs
  induction zs with
  | nil =>
    intro hm hu s tr s2 tr2 h
    simp at hm
  | cons t ts ih =>
    intro hm hu s tr s2 tr2 h
    rcases t with ⟨a, m, u⟩
    unfold muteUnmuteLoop at h
    rcases hb : mute_and_unmute_one a m u s tr with ⟨rb, trb⟩
    rw [hb] at h
    cases rb with
    | crashed sc =>
      rw [andThen_crashed] at h
      exact absurd (Prod.mk.inj h).1 (by simp)
    | ok sm =>
      rw [andThen_ok] at h
      by_cases hax : a = x
      · subst hax
        have ht := hu (a, m, u) (by simp) rfl
        obtain ⟨he1, he2⟩ : m = ml ∧ u = ul :=
          ⟨congrArg (fun t => t.2.1) ht, congrArg (fun t => t.2.2) ht⟩
        rw [he1, he2] at hb
        have hest := mute_and_unmute_one_post a ml ul y hy s tr sm trb hb
        exact muteUnmuteLoop_pres a ml ul y hy ts
          (fun t2 ht2 hx2 => hu t2 (by simp [ht2]) hx2) sm trb s2 tr2 h hest
      · have hm2 : (x, ml, ul) ∈ ts := by
          rcases List.mem_cons.mp hm with h1 | h1
          · exact absurd (congrArg (fun t => t.1) h1.symm) hax
          · exact h1
        exact ih hm2 (fun t2 ht2 hx2 => hu t2 (by simp [ht2]) hx2) sm trb s2 tr2 h

/-- C10: in `mute_and_unmute`, the mute pass over a triple's mute list runs
strictly before the unmute pass over its unmute list, so a layer name
appearing in both lists of the same object ends with its mute flag false —
the unmute wins.  (The object is identified uniquely among the zipped
triples.) -/
theorem c10_unmute_wins (objects : List String) (mls uls : List (List String))
    (x y : String) (ml ul : List String) (s s2 : Scene) (tr tr2 : Trace)
    (hmem : (x, ml, ul) ∈ zip3 objects mls uls)
    (huniq : ∀ t ∈ zip3 objects mls uls, t.1 = x → t = (x, ml, ul))
    (hml : y ∈ ml) (hul : y ∈ ul)
    (h : mute_and_unmute objects mls uls s tr = (Res.ok s2, tr2)) :
    trackMuteVal s2 x y = some false :=
  muteUnmuteLoop_est x ml ul y hul (zip3 objects mls uls) hmem huniq s tr s2 tr2 h

theorem c10_witness :
    ("Walk" : String) ∈ (["Walk"] : List String)
    ∧ trackMuteVal
        (resState (mute_and_unmute ["rig"] [["Walk"]] [["Walk"]] squirrelScene []).1)
        "rig" "Walk" = some false := by
  have h := c10_unmute_wins ["rig"] [["Walk"]] [["Walk"]] "rig" "Walk" ["Walk"] ["Walk"]
    squirrelScene
    (resState (mute_and_unmute ["rig"] [["Walk"]] [["Walk"]] squirrelScene []).1)
    [] ((mute_and_unmute ["rig"] [["Walk"]] [["Walk"]] squirrelScene []).2)
    (by decide) (by decide) (by decide) (by decide) (by rfl)
  exact ⟨by decide, h⟩
